import Mathlib

/-!
Shallow embedding of the WebpageMonitorBackend monitoring/diffing/alerting
engine (`pages/notifications.py`, `pages/screenshots.py`, `pages/storage.py`,
`pages/views.py`, `pages/management/commands/run_checks.py`) together with
theorems settling the frozen specification claims.

Python strings are modelled as `List Char`; the artifact store is modelled by
the set of relative paths it currently holds (`List (List Char)`, membership =
`exists`).  Database rows (`MonitoredPageCheck`) are modelled as records, a
page's check history as a list ordered newest first (the Django queryset
`order_by('-checked_at')` ordering used by every caller).  Exceptions of
fallible external operations are modelled by explicit outcome values.
-/

namespace WebMon

/-- Relative artifact path (a Python `str`). -/
abbrev Name := List Char

/-- The artifact store, as the set of relative paths currently stored. -/
abbrev Store := List Name

/-- Membership test modelling `storage.exists` for the backing store contents. -/
def storeHas (p : Name) (s : Store) : Bool := s.contains p

-- ---------------------------------------------------------------------------
-- pathlib modelling: stem / with_name over relative paths
-- ---------------------------------------------------------------------------

/-- Split a character list at the LAST occurrence of `sep`:
`splitLast sep cs = some (a, b)` when `cs = a ++ sep :: b` and `sep ∉ b`. -/
def splitLast (sep : Char) : Name → Option (Name × Name)
  | [] => none
  | c :: rest =>
    match splitLast sep rest with
    | some (a, b) => some (c :: a, b)
    | none => if c = sep then some ([], rest) else none

/-- Final path component (`pathlib.PurePath.name`). -/
def fileName (p : Name) : Name :=
  match splitLast '/' p with
  | some (_, n) => n
  | none => p

/-- Directory part together with the final component, if the path has one. -/
def dirPart (p : Name) : Option Name :=
  match splitLast '/' p with
  | some (d, _) => some d
  | none => none

/-- Stem of a filename (`pathlib.PurePath.stem`): the name with its last
dot-suffix removed; a leading-dot-only name keeps the whole name. -/
def fileStem (f : Name) : Name :=
  match splitLast '.' f with
  | some (a, _) => if a = [] then f else a
  | none => f

/-- Stem of the final component of a relative path (`Path(p).stem`). -/
def pathStem (p : Name) : Name := fileStem (fileName p)

/-- Replace the final component of a path (`Path(p).with_name(n)`). -/
def withName (p newName : Name) : Name :=
  match splitLast '/' p with
  | some (d, _) => d ++ '/' :: newName
  | none => newName

/-- Embedding of `_thumb_rel` (screenshots.py): `p.with_name(p.stem + "_thumb.jpg")`. -/
def thumb_rel (p : Name) : Name := withName p (pathStem p ++ "_thumb.jpg".toList)

/-- Crop path naming used by `_crop_to_region` (screenshots.py):
`p.with_name(p.stem + "_crop.jpg")`. -/
def crop_rel_of (p : Name) : Name := withName p (pathStem p ++ "_crop.jpg".toList)

/-- Embedding of `_unique_filename` (screenshots.py):
`os.path.join(str(page_id), f"<md5(time_ns)[:10]><suffix>")`.  The truncated
md5 digest of the current time is an opaque fresh token, passed in explicitly
as `h`. -/
def unique_filename (pageId : Nat) (h : Name) (suffix : Name) : Name :=
  (toString pageId).toList ++ '/' :: (h ++ suffix)

-- ---------------------------------------------------------------------------
-- Check rows and the notification trigger (pages/notifications.py)
-- ---------------------------------------------------------------------------

/-- A persisted `MonitoredPageCheck` row (the fields the engine reads). -/
structure CheckRec where
  pk : Nat
  checkedAt : Int
  is_up : Bool
  statusCode : Option Int
  screenshotPath : Name
  cropPath : Name
  diffPath : Name
  diffScore : Option ℚ
deriving DecidableEq, Repr

/-- The `MonitoredPage` fields read by the notification trigger, together with
its check history.  `checks` is the queryset `page.checks.order_by('-checked_at')`,
newest first; its head is the just-persisted latest check.  `userEmail = []`
models `page.user.email` being absent or empty (falsy). -/
structure NPage where
  notificationsEnabled : Bool
  userEmail : Name
  alertThreshold : Int
  checks : List CheckRec
deriving Repr

/-- Embedding of `_consecutive_failures`: walk the newest-first `is_up` column,
counting until the first up result. -/
def consecutive_failures : List CheckRec → Nat
  | [] => 0
  | c :: rest => if c.is_up then 0 else consecutive_failures rest + 1

/-- Which uptime email `handle_post_check_notification` sends. -/
inductive Alert where
  | down
  | recovery
deriving DecidableEq, Repr

/-- Embedding of `handle_post_check_notification` (notifications.py): the
decision of which email, if any, is sent after the latest check was persisted.
The latest check is the head of `page.checks`; `prev` is
`page.checks.order_by('-checked_at').exclude(pk=latest.pk).first()`. -/
def handle_post_check_notification (page : NPage) : Option Alert :=
  match page.checks with
  | [] => none
  | latest :: _ =>
    if !page.notificationsEnabled then none
    else if page.userEmail = [] then none
    else if latest.is_up then
      match (page.checks.filter (fun c => c.pk ≠ latest.pk)).head? with
      | some prev => if !prev.is_up then some Alert.recovery else none
      | none => none
    else
      let threshold := page.alertThreshold
      if threshold ≤ 0 then none
      else
        let failures := consecutive_failures page.checks
        if (failures : Int) ≠ threshold then none
        else some Alert.down

-- ---------------------------------------------------------------------------
-- DiffEngine (pages/screenshots.py, compute_diff)
-- ---------------------------------------------------------------------------

/-- A decoded raster image: dimensions and an RGB pixel function. -/
structure Img where
  width : Nat
  height : Nat
  px : Nat → Nat → Nat × Nat × Nat

/-- Embedding of the canvas padding in `compute_diff`: a `(w, h)` white canvas
with the image pasted at the top-left corner
(`Image.new("RGB", (w, h), (255, 255, 255))` + `paste(img, (0, 0))`). -/
def whitePad (w h : Nat) (img : Img) : Img :=
  { width := w, height := h,
    px := fun x y =>
      if x < img.width ∧ y < img.height then img.px x y else (255, 255, 255) }

/-- Hamming distance between two 64-bit perceptual hashes
(`imagehash.ImageHash.__sub__` counts differing bits). -/
def hamming (a b : Fin 64 → Bool) : Nat :=
  ((List.finRange 64).filter (fun i => a i != b i)).length

/-- Floor of a rational, computed on the normalized numerator/denominator so
that kernel evaluation works (`ratFloor_eq_floor` ties it to `Int.floor`). -/
def ratFloor (q : ℚ) : ℤ := Int.fdiv q.num (q.den : ℤ)

/-- Python `round(x, 2)` on exact rationals: round half to even at the second
decimal place.  On the values arising here (`d * 1.5625` for `d ≤ 64`) the
binary floats of the source are exact, so this coincides with CPython. -/
def pyRound2 (q : ℚ) : ℚ :=
  let s := q * 100
  let fl := ratFloor s
  let fr := s - (fl : ℚ)
  let n : ℤ :=
    if fr < 1 / 2 then fl
    else if 1 / 2 < fr then fl + 1
    else if Even fl then fl else fl + 1
  (n : ℚ) / 100

/-- Embedding of `score = round(((hash_prev - hash_curr) / 64) * 100, 2)`. -/
def scoreOf (d : Nat) : ℚ := pyRound2 ((d : ℚ) / 64 * 100)

/-- Outcome of a `storage.exists` call as observed by `compute_diff`.  The
local backend reports found/missing; the generic-S3 backend can additionally
raise (its `exists` re-raises every `ClientError` whose code is not
404/NoSuchKey, and catches nothing else). -/
inductive ExistsOutcome where
  | found
  | missing
  | raisesErr
deriving DecidableEq, Repr

/-- Environment of one `compute_diff` call: every fallible external effect is
an explicit outcome.  `importsOk` models the `import imagehash / ImageChops`
guard; `localPrev`/`localCurr` model `storage.local_path` (which returns
`None` on failure in all three backends) together with `Image.open` pre-state;
`processingOk` models the big `try` block finishing without an exception;
`phash` is the external 64-bit perceptual hash; `freshHash` is the opaque
md5-of-time token consumed by `_unique_filename` for the diff artifact. -/
structure DiffEnv where
  existsPrev : ExistsOutcome
  existsCurr : ExistsOutcome
  importsOk : Bool
  localPrev : Option Img
  localCurr : Option Img
  processingOk : Bool
  phash : Img → Fin 64 → Bool
  freshHash : Name

/-- Embedding of `compute_diff` (screenshots.py).  `Except.error ()` models an
exception propagating to the caller; the only place that can happen is the
`storage.exists` pair on line 259, which runs outside every `try` block (the
two calls short-circuit through Python `or`).  The returned store reflects the
`storage.save` of the rendered diff when the score is positive; the pixel
content of the rendered highlight image does not influence paths, score or
store membership and is not modelled. -/
def compute_diff (prevRel currRel : Name) (pageId : Nat) (env : DiffEnv)
    (store : Store) : Except Unit ((Name × Option ℚ) × Store) :=
  if prevRel = [] ∨ currRel = [] then .ok (([], none), store)
  else
    match env.existsPrev with
    | .raisesErr => .error ()
    | .missing => .ok (([], none), store)
    | .found =>
      match env.existsCurr with
      | .raisesErr => .error ()
      | .missing => .ok (([], none), store)
      | .found =>
        if !env.importsOk then .ok (([], none), store)
        else
          match env.localPrev, env.localCurr with
          | none, _ => .ok (([], none), store)
          | some _, none => .ok (([], none), store)
          | some imgPrev, some imgCurr =>
            if !env.processingOk then .ok (([], none), store)
            else
              let w := max imgPrev.width imgCurr.width
              let h := max imgPrev.height imgCurr.height
              let hashPrev := env.phash (whitePad w h imgPrev)
              let hashCurr := env.phash (whitePad w h imgCurr)
              let score := scoreOf (hamming hashPrev hashCurr)
              if 0 < score then
                let diffRel := unique_filename pageId env.freshHash "_diff.jpg".toList
                .ok ((diffRel, some score), diffRel :: store)
              else .ok (([], some score), store)

-- ---------------------------------------------------------------------------
-- CheckExecutor (pages/management/commands/run_checks.py)
-- ---------------------------------------------------------------------------

/-- Artifact-related fields of the CheckResult row persisted by
`Command._run_single_check`. -/
structure CheckArtifacts where
  screenshotPath : Name
  cropPath : Name
  diffPath : Name
  diffScore : Option ℚ
deriving DecidableEq, Repr

/-- Embedding of `delete_screenshot_file` (screenshots.py): best-effort delete
through the storage abstraction, no-op on an empty path. -/
def delete_screenshot_file (relPath : Name) (store : Store) : Store :=
  if relPath = [] then store else store.filter (fun p => p ≠ relPath)

/-- Embedding of the screenshot/diff section of `Command._run_single_check`
(run_checks.py) and the artifact fields it persists.  `captured` is the
`capture_screenshot` result (that function catches every exception and returns
two empty strings on failure, so it is total); `lastCheck` is
`page.checks.order_by('-checked_at').first()` read before the new row is
created.  An exception escaping `compute_diff` is absorbed by the surrounding
`except Exception: pass`, which keeps the already-captured paths and leaves
the diff fields at their defaults. -/
def run_single_check_artifacts (screenshotEnabled isUp : Bool)
    (lastCheck : Option CheckRec) (captured : Name × Name) (pageId : Nat)
    (env : DiffEnv) (store : Store) : CheckArtifacts × Store :=
  if screenshotEnabled && isUp then
    let ssRel := captured.1
    let cropRel := captured.2
    let diffSource := if cropRel ≠ [] then cropRel else ssRel
    match lastCheck with
    | some lc =>
      if ssRel ≠ [] ∧ lc.screenshotPath ≠ [] then
        let prevSource := if lc.cropPath ≠ [] then lc.cropPath else lc.screenshotPath
        match compute_diff prevSource diffSource pageId env store with
        | .error _ =>
          ({ screenshotPath := ssRel, cropPath := cropRel, diffPath := [],
             diffScore := none }, store)
        | .ok ((diffRel, diffScore), store1) =>
          if diffScore = some 0 then
            let store2 := delete_screenshot_file ssRel store1
            let store3 :=
              if cropRel ≠ [] then delete_screenshot_file cropRel store2 else store2
            ({ screenshotPath := lc.screenshotPath, cropPath := lc.cropPath,
               diffPath := diffRel, diffScore := diffScore }, store3)
          else
            ({ screenshotPath := ssRel, cropPath := cropRel, diffPath := diffRel,
               diffScore := diffScore }, store1)
      else
        ({ screenshotPath := ssRel, cropPath := cropRel, diffPath := [],
           diffScore := none }, store)
    | none =>
      ({ screenshotPath := ssRel, cropPath := cropRel, diffPath := [],
         diffScore := none }, store)
  else
    ({ screenshotPath := [], cropPath := [], diffPath := [], diffScore := none },
      store)

-- ---------------------------------------------------------------------------
-- RetentionManager (pages/screenshots.py, cleanup_old_screenshots)
-- ---------------------------------------------------------------------------

/-- Store deletions performed for one pruned check row: full screenshot, crop,
diff and the derived thumbnail. -/
def pruneCheckStore (c : CheckRec) (s : Store) : Store :=
  let s1 := delete_screenshot_file c.screenshotPath s
  let s2 := delete_screenshot_file c.cropPath s1
  let s3 := delete_screenshot_file c.diffPath s2
  if c.screenshotPath ≠ [] then delete_screenshot_file (thumb_rel c.screenshotPath) s3
  else s3

/-- The paths removed from the store on behalf of the pruned check `c`. -/
def deletesPath (c : CheckRec) (x : Name) : Prop :=
  (c.screenshotPath ≠ [] ∧ x = c.screenshotPath) ∨
  (c.cropPath ≠ [] ∧ x = c.cropPath) ∨
  (c.diffPath ≠ [] ∧ x = c.diffPath) ∨
  (c.screenshotPath ≠ [] ∧ x = thumb_rel c.screenshotPath)

instance (c : CheckRec) (x : Name) : Decidable (deletesPath c x) := by
  unfold deletesPath
  infer_instance

/-- Rows after the prune clears a pruned check's three path fields. -/
def clearPaths (c : CheckRec) : CheckRec :=
  { c with screenshotPath := [], cropPath := [], diffPath := [] }

/-- Embedding of `cleanup_old_screenshots` (screenshots.py).  `limit` is
`settings.MAX_SCREENSHOTS_PER_PAGE` (default 30).  `checks` holds the page's
check rows ordered newest first (the `order_by("-checked_at")` ordering of the
query); the result is the rows after the prune (rows are updated in place by
primary key, never deleted) together with the store after the artifact
deletions. -/
def cleanup_old_screenshots (limit : Nat) (checks : List CheckRec)
    (store : Store) : List CheckRec × Store :=
  let checksWithSS := checks.filter (fun c => c.screenshotPath ≠ [])
  let toPrune := checksWithSS.drop limit
  if toPrune = [] then (checks, store)
  else
    let store1 := toPrune.foldl (fun s c => pruneCheckStore c s) store
    let checks1 := checks.map (fun c =>
      if toPrune.any (fun d => d.pk = c.pk) then clearPaths c else c)
    (checks1, store1)

-- ---------------------------------------------------------------------------
-- ArtifactStore exists (pages/storage.py)
-- ---------------------------------------------------------------------------

/-- Outcome of the backend HEAD/stat call underlying `exists`. -/
inductive HeadResult where
  | ok
  | clientError (code : Name)
  | otherError
deriving DecidableEq, Repr

/-- Embedding of `S3ScreenshotStorage.exists` (storage.py): 404/NoSuchKey
client errors mean "not found"; every other `ClientError` is re-raised, and
exceptions that are not `ClientError` (e.g. connection failures) are not
caught at all.  `Except.error ()` models the exception reaching the caller. -/
def s3_exists (r : HeadResult) : Except Unit Bool :=
  match r with
  | .ok => .ok true
  | .clientError code =>
    if code = "404".toList ∨ code = "NoSuchKey".toList then .ok false
    else .error ()
  | .otherError => .error ()

/-- Embedding of `SeaweedFSScreenshotStorage.exists` (storage.py): 404,
NoSuchKey, 403 and Forbidden client errors mean "not found"; every other
client error and every other exception is logged and also mapped to `false`. -/
def seaweedfs_exists (r : HeadResult) : Except Unit Bool :=
  match r with
  | .ok => .ok true
  | .clientError code =>
    if code = "404".toList ∨ code = "NoSuchKey".toList ∨ code = "403".toList ∨
        code = "Forbidden".toList then .ok false
    else .ok false
  | .otherError => .ok false

/-- Embedding of `LocalScreenshotStorage.exists` (storage.py):
`self._abs(rel_path).is_file()`, a total boolean. -/
def local_exists (isFile : Bool) : Except Unit Bool := .ok isFile

-- ---------------------------------------------------------------------------
-- Artifact serving (pages/views.py, serve_screenshot)
-- ---------------------------------------------------------------------------

/-- Digit-string value, models the core of CPython `int(str)`: every
character must be a decimal digit and the string must be non-empty. -/
def digitsVal (cs : Name) : Option Nat :=
  if cs = [] then none
  else
    cs.foldl (fun acc c =>
      match acc with
      | none => none
      | some n => if c.isDigit then some (n * 10 + (c.toNat - 48)) else none)
      (some 0)

/-- Python `int(s)` on the plain ASCII sign+digits forms relevant to path
segments; anything else raises `ValueError`, modelled as `none`. -/
def py_int (s : Name) : Option Int :=
  match s with
  | '-' :: rest => (digitsVal rest).map (fun n => -(n : Int))
  | '+' :: rest => (digitsVal rest).map (fun n => (n : Int))
  | _ => (digitsVal s).map (fun n => (n : Int))

/-- The process-wide storage backend selection (settings driven). -/
inductive StorageBackend where
  | localDisk
  | s3
  | seaweedfs
deriving DecidableEq, Repr

/-- Environment of one `serve_screenshot` request.  `owns pid uid` models
`MonitoredPage.objects.filter(pk=pid, user=user).exists()`; the remaining
flags model the storage probes made after the access-control checks. -/
structure ServeEnv where
  backend : StorageBackend
  owns : Int → Nat → Bool
  existsRel : Bool
  presignOk : Bool
  openOk : Bool
  localIsFile : Bool

/-- What `serve_screenshot` replies with. -/
inductive ServeOutcome where
  | notAuthenticated
  | notFound
  | forbidden
  | fileBytes (rel : Name)
  | redirectPresigned (rel : Name)
deriving DecidableEq, Repr

/-- The path-traversal segment rejected by `serve_screenshot`. -/
def dotdot : Name := ['.', '.']

/-- Rebuild the relative path string from `Path(path).parts`. -/
def joinParts (parts : List Name) : Name := (parts.intersperse ['/']).flatten

/-- Embedding of `serve_screenshot` (views.py).  `parts` is
`Path(path).parts`; `requestUser = none` models an unauthenticated request. -/
def serve_screenshot (requestUser : Option Nat) (parts : List Name)
    (env : ServeEnv) : ServeOutcome :=
  match requestUser with
  | none => .notAuthenticated
  | some uid =>
    if dotdot ∈ parts then .notFound
    else
      match parts.head? with
      | none => .notFound
      | some first =>
        match py_int first with
        | none => .notFound
        | some pid =>
          if !env.owns pid uid then .forbidden
          else
            let rel := joinParts parts
            if !env.existsRel then .notFound
            else
              match env.backend with
              | .s3 => if env.presignOk then .redirectPresigned rel else .notFound
              | .seaweedfs => if env.openOk then .fileBytes rel else .notFound
              | .localDisk => if env.localIsFile then .fileBytes rel else .notFound

end WebMon

namespace WebMon

-- ---------------------------------------------------------------------------
-- Score arithmetic facts
-- ---------------------------------------------------------------------------

theorem ratFloor_eq_floor (q : ℚ) : ratFloor q = ⌊q⌋ := by
  rw [Rat.floor_def, ratFloor, Int.fdiv_eq_ediv _ (by positivity)]

/-- Score table facts for every possible 64-bit hamming distance. -/
theorem scoreOf_facts :
    ∀ d : Fin 65, 0 ≤ scoreOf d.val ∧ scoreOf d.val ≤ 100 ∧
      (scoreOf d.val = 0 ↔ d.val = 0) := by with_unfolding_all decide

theorem hamming_le (a b : Fin 64 → Bool) : hamming a b ≤ 64 := by
  have h := List.length_filter_le (fun i => a i != b i) (List.finRange 64)
  simpa [List.length_finRange] using h

theorem hamming_eq_zero_iff (a b : Fin 64 → Bool) : hamming a b = 0 ↔ a = b := by
  unfold hamming
  rw [List.length_eq_zero, List.filter_eq_nil_iff]
  constructor
  · intro h
    funext i
    have := h i (List.mem_finRange i)
    simpa using this
  · intro h i _
    simp [h]

-- ---------------------------------------------------------------------------
-- Claim C3: compute_diff error handling
-- ---------------------------------------------------------------------------

/-- C3 (claim as stated, refuted): `compute_diff` calls `storage.exists`
outside every `try` block, and with the generic-S3 backend `exists` re-raises
backend errors other than 404/NoSuchKey; such an error propagates out of
`compute_diff` instead of yielding `("", None)`. -/
theorem C3_counterexample :
    compute_diff "1/a.jpg".toList "1/b.jpg".toList 1
      { existsPrev := ExistsOutcome.raisesErr, existsCurr := ExistsOutcome.found,
        importsOk := true, localPrev := none, localCurr := none,
        processingOk := true, phash := fun _ _ => false, freshHash := [] }
      [] = .error () := rfl

/-- C3 (amended): provided the two `storage.exists` probes themselves do not
raise (always true for the local and SeaweedFS backends), `compute_diff`
returns `("", None)` and leaves the store unchanged whenever either path is
empty, either path is reported absent, the imagehash/Pillow imports fail, a
local copy of either image cannot be obtained, or the processing block fails
— no such failure propagates to the caller. -/
theorem C3_empty_null_on_failure (prevRel currRel : Name) (pageId : Nat)
    (env : DiffEnv) (store : Store)
    (hex1 : env.existsPrev ≠ ExistsOutcome.raisesErr)
    (hex2 : env.existsCurr ≠ ExistsOutcome.raisesErr)
    (h : prevRel = [] ∨ currRel = [] ∨ env.existsPrev = ExistsOutcome.missing ∨
         env.existsCurr = ExistsOutcome.missing ∨ env.importsOk = false ∨
         env.localPrev = none ∨ env.localCurr = none ∨ env.processingOk = false) :
    compute_diff prevRel currRel pageId env store = .ok (([], none), store) := by
  unfold compute_diff
  by_cases hpe : prevRel = [] ∨ currRel = []
  · rw [if_pos hpe]
  · rw [if_neg hpe]
    push_neg at hpe
    cases h1 : env.existsPrev with
    | raisesErr => exact absurd h1 hex1
    | missing => rfl
    | found =>
      cases h2 : env.existsCurr with
      | raisesErr => exact absurd h2 hex2
      | missing => rfl
      | found =>
        rcases h with h | h | h | h | h | h | h | h
        · exact absurd h hpe.1
        · exact absurd h hpe.2
        · rw [h1] at h; cases h
        · rw [h2] at h; cases h
        · simp [h]
        · cases hb : env.importsOk with
          | false => rfl
          | true => simp [h]
        · cases hb : env.importsOk with
          | false => rfl
          | true =>
            cases hl : env.localPrev with
            | none => rfl
            | some imgPrev => simp [h]
        · cases hb : env.importsOk with
          | false => rfl
          | true =>
            cases hl : env.localPrev with
            | none => rfl
            | some imgPrev =>
              cases hl2 : env.localCurr with
              | none => rfl
              | some imgCurr => simp [h]

/-- Witness for C3: an empty previous path with an otherwise healthy
environment yields `("", None)` and an unchanged store. -/
theorem C3_empty_null_witness :
    compute_diff [] "1/b.jpg".toList 1
      { existsPrev := ExistsOutcome.found, existsCurr := ExistsOutcome.found,
        importsOk := true, localPrev := none, localCurr := none,
        processingOk := true, phash := fun _ _ => false, freshHash := [] }
      ["1/b.jpg".toList] = .ok (([], none), ["1/b.jpg".toList]) :=
  C3_empty_null_on_failure _ _ _ _ _ (by decide) (by decide) (Or.inl rfl)

-- ---------------------------------------------------------------------------
-- Claim C8: compute_diff success path, score formula and bounds
-- ---------------------------------------------------------------------------

/-- C8: for two images present in the store, `compute_diff` pads both onto a
white canvas of the maximal width and height (original pixels kept top-left),
hashes the padded canvases, and returns the score
`round((hammingDistance / 64) * 100, 2)`; the score lies in `[0, 100]` and is
`0` exactly when the two 64-bit hashes are equal. -/
theorem C8_score_bounds_and_zero_iff (prevRel currRel : Name) (pageId : Nat)
    (env : DiffEnv) (store : Store) (imgPrev imgCurr : Img)
    (hp : prevRel ≠ []) (hc : currRel ≠ [])
    (he1 : env.existsPrev = ExistsOutcome.found)
    (he2 : env.existsCurr = ExistsOutcome.found)
    (him : env.importsOk = true)
    (hl1 : env.localPrev = some imgPrev) (hl2 : env.localCurr = some imgCurr)
    (hpr : env.processingOk = true) :
    let w := max imgPrev.width imgCurr.width
    let h := max imgPrev.height imgCurr.height
    let hashPrev := env.phash (whitePad w h imgPrev)
    let hashCurr := env.phash (whitePad w h imgCurr)
    let score := scoreOf (hamming hashPrev hashCurr)
    (∀ x y, (whitePad w h imgPrev).px x y =
        if x < imgPrev.width ∧ y < imgPrev.height then imgPrev.px x y
        else (255, 255, 255)) ∧
    0 ≤ score ∧ score ≤ 100 ∧ (score = 0 ↔ hashPrev = hashCurr) ∧
    ∃ diffRel store1,
      compute_diff prevRel currRel pageId env store =
        .ok ((diffRel, some score), store1) := by
  intro w h hashPrev hashCurr score
  have hle : hamming hashPrev hashCurr ≤ 64 := hamming_le _ _
  obtain ⟨h0, h100, hz⟩ :=
    scoreOf_facts ⟨hamming hashPrev hashCurr, by omega⟩
  refine ⟨fun x y => rfl, h0, h100, ?_, ?_⟩
  · exact hz.trans (hamming_eq_zero_iff hashPrev hashCurr)
  · unfold compute_diff
    rw [if_neg (by push_neg; exact ⟨hp, hc⟩)]
    simp only [he1, he2, him, hl1, hl2, hpr, Bool.not_true, Bool.false_eq_true,
      if_false]
    by_cases hpos : 0 < score
    · rw [if_pos hpos]
      exact ⟨_, _, rfl⟩
    · rw [if_neg hpos]
      exact ⟨[], store, rfl⟩

/-- Witness for C8: two one-pixel images under a constant hash function — the
score is 0, within bounds, and the hashes coincide. -/
theorem C8_score_witness :
    let img : Img := { width := 1, height := 1, px := fun _ _ => (0, 0, 0) }
    let env : DiffEnv :=
      { existsPrev := ExistsOutcome.found, existsCurr := ExistsOutcome.found,
        importsOk := true, localPrev := some img, localCurr := some img,
        processingOk := true, phash := fun _ _ => false, freshHash := [] }
    let w := max img.width img.width
    let h := max img.height img.height
    let hashPrev := env.phash (whitePad w h img)
    let hashCurr := env.phash (whitePad w h img)
    let score := scoreOf (hamming hashPrev hashCurr)
    (∀ x y, (whitePad w h img).px x y =
        if x < img.width ∧ y < img.height then img.px x y
        else (255, 255, 255)) ∧
    0 ≤ score ∧ score ≤ 100 ∧ (score = 0 ↔ hashPrev = hashCurr) ∧
    ∃ diffRel store1,
      compute_diff "1/a.jpg".toList "1/b.jpg".toList 7 env
        ["1/a.jpg".toList, "1/b.jpg".toList] =
        .ok ((diffRel, some score), store1) :=
  C8_score_bounds_and_zero_iff _ _ 7 _ _ _ _
    (by decide) (by decide) rfl rfl rfl rfl rfl rfl

-- ---------------------------------------------------------------------------
-- Claims C1, C5, C10: downtime / recovery notification decisions
-- ---------------------------------------------------------------------------

/-- C1 (claim as stated, refuted): a page with notifications enabled and
threshold 1 whose owning user has no email address, latest check down with a
failure streak of exactly 1, emits no downtime notification, although the
claim requires one. -/
theorem C1_counterexample :
    let page : NPage :=
      { notificationsEnabled := true, userEmail := [], alertThreshold := 1,
        checks := [{ pk := 1, checkedAt := 10, is_up := false, statusCode := none,
                     screenshotPath := [], cropPath := [], diffPath := [],
                     diffScore := none }] }
    page.notificationsEnabled = true ∧ page.alertThreshold = 1 ∧
      (page.checks.head?.map CheckRec.is_up = some false) ∧
      consecutive_failures page.checks = 1 ∧
      handle_post_check_notification page ≠ some Alert.down := by
  decide

/-- C1 (amended): for a page with notifications enabled, alert threshold
`t > 0`, AND a non-empty owner email address, the downtime notification is
emitted after a persisted check iff the latest check is down and the number of
consecutive trailing down checks equals `t`; in particular streaks of length
other than `t` (e.g. `t + 1`) emit nothing. -/
theorem C1_down_alert_iff_streak_hits_threshold (page : NPage)
    (hen : page.notificationsEnabled = true)
    (hmail : page.userEmail ≠ [])
    (hthr : 0 < page.alertThreshold) :
    handle_post_check_notification page = some Alert.down ↔
      (∃ latest rest, page.checks = latest :: rest ∧ latest.is_up = false) ∧
        (consecutive_failures page.checks : Int) = page.alertThreshold := by
  unfold handle_post_check_notification
  cases hcs : page.checks with
  | nil =>
    constructor
    · intro h; cases h
    · rintro ⟨⟨l, r, hlr, -⟩, -⟩; cases hlr
  | cons latest rest =>
    rw [hen]
    simp only [Bool.not_true, Bool.false_eq_true, if_false]
    rw [if_neg hmail]
    cases hup : latest.is_up with
    | true =>
      simp only [if_true]
      constructor
      · intro h
        exfalso
        cases hprev : ((latest :: rest).filter (fun c => c.pk ≠ latest.pk)).head? with
        | none => rw [hprev] at h; cases h
        | some prev =>
          rw [hprev] at h
          by_cases hp : prev.is_up <;> simp [hp] at h
      · rintro ⟨⟨l, r, hlr, hl⟩, -⟩
        injection hlr with h1 h2
        subst h1
        rw [hup] at hl
        cases hl
    | false =>
      simp only [Bool.false_eq_true, if_false]
      rw [if_neg (by omega : ¬ page.alertThreshold ≤ 0)]
      by_cases hf : (consecutive_failures (latest :: rest) : Int) = page.alertThreshold
      · rw [if_neg (not_not_intro hf)]
        constructor
        · intro _; exact ⟨⟨latest, rest, rfl, hup⟩, hf⟩
        · intro _; rfl
      · rw [if_pos hf]
        constructor
        · intro h; cases h
        · rintro ⟨-, hc⟩; exact absurd hc hf

/-- Witness for C1: threshold 2, enabled notifications, a real email address,
history down-down-up: the downtime alert fires and the streak is exactly 2. -/
theorem C1_down_alert_witness :
    let mk : Nat → Int → Bool → CheckRec := fun k t u =>
      { pk := k, checkedAt := t, is_up := u, statusCode := none,
        screenshotPath := [], cropPath := [], diffPath := [], diffScore := none }
    let page : NPage :=
      { notificationsEnabled := true, userEmail := "u@example.com".toList,
        alertThreshold := 2,
        checks := [mk 3 30 false, mk 2 20 false, mk 1 10 true] }
    handle_post_check_notification page = some Alert.down ↔
      (∃ latest rest, page.checks = latest :: rest ∧ latest.is_up = false) ∧
        (consecutive_failures page.checks : Int) = page.alertThreshold :=
  C1_down_alert_iff_streak_hits_threshold _ rfl (by decide) (by decide)

/-- C5 (claim as stated, refuted): a page with notifications disabled whose
latest check is up right after a down check emits no recovery notification,
although the claim (quantified over every page) requires one. -/
theorem C5_counterexample :
    let mk : Nat → Int → Bool → CheckRec := fun k t u =>
      { pk := k, checkedAt := t, is_up := u, statusCode := none,
        screenshotPath := [], cropPath := [], diffPath := [], diffScore := none }
    let page : NPage :=
      { notificationsEnabled := false, userEmail := "u@example.com".toList,
        alertThreshold := 2,
        checks := [mk 2 20 true, mk 1 10 false] }
    (page.checks.head?.map CheckRec.is_up = some true) ∧
      ((page.checks.filter (fun c => c.pk ≠ 2)).head?.map CheckRec.is_up
        = some false) ∧
      handle_post_check_notification page ≠ some Alert.recovery := by
  decide

/-- C5 (amended): for a page with notifications enabled and a non-empty owner
email address, the recovery notification is emitted iff the latest check is up
and the immediately prior check (newest by timestamp among the checks whose
primary key differs from the latest's) exists and was down; in particular it
is never emitted on two consecutive up checks. -/
theorem C5_recovery_iff_prior_down (page : NPage)
    (hen : page.notificationsEnabled = true)
    (hmail : page.userEmail ≠ []) :
    handle_post_check_notification page = some Alert.recovery ↔
      ∃ latest rest, page.checks = latest :: rest ∧ latest.is_up = true ∧
        ∃ prev, (page.checks.filter (fun c => c.pk ≠ latest.pk)).head? = some prev ∧
          prev.is_up = false := by
  unfold handle_post_check_notification
  cases hcs : page.checks with
  | nil =>
    constructor
    · intro h; cases h
    · rintro ⟨l, r, hlr, -⟩; cases hlr
  | cons latest rest =>
    rw [hen]
    simp only [Bool.not_true, Bool.false_eq_true, if_false]
    rw [if_neg hmail]
    cases hup : latest.is_up with
    | true =>
      simp only [if_true]
      cases hprev : ((latest :: rest).filter (fun c => c.pk ≠ latest.pk)).head? with
      | none =>
        constructor
        · intro h; cases h
        · rintro ⟨l, r, hlr, -, q, hq, -⟩
          injection hlr with h1 h2
          subst h1
          rw [hprev] at hq
          cases hq
      | some prev =>
        by_cases hp : prev.is_up = true
        · simp only [hp, Bool.not_true, Bool.false_eq_true, if_false]
          constructor
          · intro h; cases h
          · rintro ⟨l, r, hlr, -, q, hq, hqup⟩
            injection hlr with h1 h2
            subst h1
            rw [hprev] at hq
            injection hq with h3
            subst h3
            rw [hp] at hqup
            cases hqup
        · simp only [Bool.not_eq_true] at hp
          simp only [hp, Bool.not_false]
          constructor
          · intro _
            exact ⟨latest, rest, rfl, hup, prev, hprev, hp⟩
          · intro _; rfl
    | false =>
      simp only [Bool.false_eq_true, if_false]
      constructor
      · intro h
        by_cases h0 : page.alertThreshold ≤ 0
        · rw [if_pos h0] at h; cases h
        · rw [if_neg h0] at h
          by_cases hf : (consecutive_failures (latest :: rest) : Int) ≠ page.alertThreshold
          · rw [if_pos hf] at h; cases h
          · rw [if_neg hf] at h
            simp at h
      · rintro ⟨l, r, hlr, hl, -⟩
        injection hlr with h1 h2
        subst h1
        rw [hup] at hl
        cases hl

/-- Witness for C5: notifications enabled, owner email set, latest check up
and the prior check down — the recovery notification is emitted. -/
theorem C5_recovery_witness :
    let mk : Nat → Int → Bool → CheckRec := fun k t u =>
      { pk := k, checkedAt := t, is_up := u, statusCode := none,
        screenshotPath := [], cropPath := [], diffPath := [], diffScore := none }
    let page : NPage :=
      { notificationsEnabled := true, userEmail := "u@example.com".toList,
        alertThreshold := 2,
        checks := [mk 2 20 true, mk 1 10 false] }
    handle_post_check_notification page = some Alert.recovery ↔
      ∃ latest rest, page.checks = latest :: rest ∧ latest.is_up = true ∧
        ∃ prev, (page.checks.filter (fun c => c.pk ≠ latest.pk)).head? = some prev ∧
          prev.is_up = false :=
  C5_recovery_iff_prior_down _ rfl (by decide)

/-- C10: the recovery notification is additionally gated on the page's
notifications-enabled flag and on a non-empty owner email address — if either
is missing, `handle_post_check_notification` sends nothing at all (so in
particular no recovery email), whatever the check history is. -/
theorem C10_recovery_gated_on_flag_and_email (page : NPage)
    (h : page.notificationsEnabled = false ∨ page.userEmail = []) :
    handle_post_check_notification page = none := by
  unfold handle_post_check_notification
  cases hcs : page.checks with
  | nil => rfl
  | cons latest rest =>
    cases h with
    | inl hen => rw [hen]; rfl
    | inr hmail => simp [hmail]

/-- Witness for C10: a page with notifications disabled, latest check up right
after a down check, sends nothing. -/
theorem C10_recovery_gated_witness :
    let mk : Nat → Int → Bool → CheckRec := fun k t u =>
      { pk := k, checkedAt := t, is_up := u, statusCode := none,
        screenshotPath := [], cropPath := [], diffPath := [], diffScore := none }
    handle_post_check_notification
      { notificationsEnabled := false, userEmail := "u@example.com".toList,
        alertThreshold := 2,
        checks := [mk 2 20 true, mk 1 10 false] } = none :=
  C10_recovery_gated_on_flag_and_email _ (Or.inl rfl)

-- ---------------------------------------------------------------------------
-- Claim C7: the store's exists operation across the three backends
-- ---------------------------------------------------------------------------

/-- C7 (claim as stated, refuted): `S3ScreenshotStorage.exists` re-raises a
ClientError whose code is not 404/NoSuchKey (e.g. a 500), instead of treating
the backend error as "not found". -/
theorem C7_counterexample :
    s3_exists (HeadResult.clientError "500".toList) = .error () := rfl

/-- C7 (amended): the local and SeaweedFS backends' `exists` always return a
boolean and never raise; the generic-S3 backend raises exactly on a
ClientError whose code is neither 404 nor NoSuchKey and on every
non-ClientError exception. -/
theorem C7_exists_error_handling :
    (∀ b : Bool, local_exists b = .ok b) ∧
    (∀ r : HeadResult, ∃ b : Bool, seaweedfs_exists r = .ok b) ∧
    (∀ r : HeadResult, s3_exists r = .error () ↔
      r = HeadResult.otherError ∨
      ∃ code, r = HeadResult.clientError code ∧
        ¬(code = "404".toList ∨ code = "NoSuchKey".toList)) := by
  refine ⟨fun b => rfl, ?_, ?_⟩
  · intro r
    cases r with
    | ok => exact ⟨true, rfl⟩
    | clientError code =>
      exact ⟨false, by simp [seaweedfs_exists]⟩
    | otherError => exact ⟨false, rfl⟩
  · intro r
    cases r with
    | ok =>
      constructor
      · intro h; cases h
      · rintro (h | ⟨code, h, -⟩) <;> cases h
    | clientError code =>
      simp only [s3_exists]
      by_cases hc : code = "404".toList ∨ code = "NoSuchKey".toList
      · rw [if_pos hc]
        constructor
        · intro h; cases h
        · rintro (h | ⟨c, hc2, hn⟩)
          · cases h
          · injection hc2 with h3
            subst h3
            exact absurd hc hn
      · rw [if_neg hc]
        constructor
        · intro _; exact Or.inr ⟨code, rfl, hc⟩
        · intro _; rfl
    | otherError =>
      constructor
      · intro _; exact Or.inl rfl
      · intro _; rfl

-- ---------------------------------------------------------------------------
-- Claim C9: artifact serving requires ownership of the page
-- ---------------------------------------------------------------------------

/-- C9: `serve_screenshot` returns bytes or a redirect only when the request
is authenticated, the path contains no ".." segment, the first segment parses
as a page id, and the requesting user owns that page; every other request is
rejected without serving. -/
theorem C9_serving_requires_ownership (requestUser : Option Nat)
    (parts : List Name) (env : ServeEnv) (rel : Name)
    (h : serve_screenshot requestUser parts env = ServeOutcome.fileBytes rel ∨
         serve_screenshot requestUser parts env =
           ServeOutcome.redirectPresigned rel) :
    ∃ uid first pid, requestUser = some uid ∧ dotdot ∉ parts ∧
      parts.head? = some first ∧ py_int first = some pid ∧
      env.owns pid uid = true := by
  cases requestUser with
  | none => rcases h with h | h <;> simp [serve_screenshot] at h
  | some uid =>
    simp only [serve_screenshot] at h
    by_cases hdd : dotdot ∈ parts
    · rw [if_pos hdd] at h
      rcases h with h | h <;> cases h
    · rw [if_neg hdd] at h
      cases hf : parts.head? with
      | none => rw [hf] at h; rcases h with h | h <;> simp at h
      | some first =>
        rw [hf] at h
        dsimp only at h
        cases hpi : py_int first with
        | none => rw [hpi] at h; rcases h with h | h <;> simp at h
        | some pid =>
          rw [hpi] at h
          dsimp only at h
          cases ho : env.owns pid uid with
          | false => rw [ho] at h; rcases h with h | h <;> simp at h
          | true =>
            exact ⟨uid, first, pid, rfl, hdd, rfl, hpi, ho⟩

-- ---------------------------------------------------------------------------
-- Path-naming lemmas (for C6)
-- ---------------------------------------------------------------------------

theorem splitLast_eq_none (sep : Char) :
    ∀ (l : Name), sep ∉ l → splitLast sep l = none
  | [], _ => rfl
  | c :: rest, h => by
    have h1 : sep ∉ rest := fun hm => h (List.mem_cons_of_mem _ hm)
    have h2 : ¬ c = sep := fun hc => h (by rw [hc]; exact List.mem_cons_self _ _)
    simp only [splitLast, splitLast_eq_none sep rest h1]
    rw [if_neg h2]

theorem splitLast_append (sep : Char) :
    ∀ (a b : Name), sep ∉ b → splitLast sep (a ++ sep :: b) = some (a, b)
  | [], b, h => by
    simp [splitLast, splitLast_eq_none sep b h]
  | c :: a, b, h => by
    simp [splitLast, splitLast_append sep a b h]

theorem fileName_of_append (d f : Name) (hf : '/' ∉ f) :
    fileName (d ++ '/' :: f) = f := by
  unfold fileName
  rw [splitLast_append '/' d f hf]

theorem withName_of_append (d f n : Name) (hf : '/' ∉ f) :
    withName (d ++ '/' :: f) n = d ++ '/' :: n := by
  unfold withName
  rw [splitLast_append '/' d f hf]

theorem fileStem_append (s ext : Name) (hs : s ≠ []) (hx : '.' ∉ ext) :
    fileStem (s ++ '.' :: ext) = s := by
  unfold fileStem
  rw [splitLast_append '.' s ext hx]
  exact if_neg hs

-- ---------------------------------------------------------------------------
-- Result shapes of compute_diff (for C4 and C6)
-- ---------------------------------------------------------------------------

theorem ok_triple_inj {A B C : Type} {x dp : A} {y sc : B} {z st : C}
    (h : (Except.ok ((x, y), z) : Except Unit ((A × B) × C)) =
      Except.ok ((dp, sc), st)) :
    dp = x ∧ sc = y ∧ st = z := by
  simp only [Except.ok.injEq, Prod.mk.injEq] at h
  exact ⟨h.1.1.symm, h.1.2.symm, h.2.symm⟩

theorem compute_diff_ok_cases (prevRel currRel : Name) (pageId : Nat)
    (env : DiffEnv) (store : Store) (dp : Name) (sc : Option ℚ) (st : Store)
    (h : compute_diff prevRel currRel pageId env store = Except.ok ((dp, sc), st)) :
    (dp = [] ∧ sc = none ∧ st = store) ∨
    (∃ d, d ≤ 64 ∧ sc = some (scoreOf d) ∧
      ((¬ 0 < scoreOf d ∧ dp = [] ∧ st = store) ∨
       (0 < scoreOf d ∧ dp = unique_filename pageId env.freshHash "_diff.jpg".toList ∧
         st = unique_filename pageId env.freshHash "_diff.jpg".toList :: store))) := by
  unfold compute_diff at h
  by_cases hpe : prevRel = [] ∨ currRel = []
  · rw [if_pos hpe] at h
    exact Or.inl (ok_triple_inj h)
  · rw [if_neg hpe] at h
    cases he1 : env.existsPrev with
    | raisesErr => rw [he1] at h; cases h
    | missing => rw [he1] at h; exact Or.inl (ok_triple_inj h)
    | found =>
      rw [he1] at h
      cases he2 : env.existsCurr with
      | raisesErr => rw [he2] at h; cases h
      | missing => rw [he2] at h; exact Or.inl (ok_triple_inj h)
      | found =>
        rw [he2] at h
        cases him : env.importsOk with
        | false => rw [him] at h; exact Or.inl (ok_triple_inj h)
        | true =>
          rw [him] at h
          cases hl1 : env.localPrev with
          | none => rw [hl1] at h; exact Or.inl (ok_triple_inj h)
          | some imgPrev =>
            rw [hl1] at h
            cases hl2 : env.localCurr with
            | none => rw [hl2] at h; exact Or.inl (ok_triple_inj h)
            | some imgCurr =>
              rw [hl2] at h
              cases hpr : env.processingOk with
              | false => rw [hpr] at h; exact Or.inl (ok_triple_inj h)
              | true =>
                rw [hpr] at h
                have h2 :
                    (if 0 < scoreOf (hamming
                        (env.phash (whitePad (max imgPrev.width imgCurr.width)
                          (max imgPrev.height imgCurr.height) imgPrev))
                        (env.phash (whitePad (max imgPrev.width imgCurr.width)
                          (max imgPrev.height imgCurr.height) imgCurr)))
                     then (Except.ok ((unique_filename pageId env.freshHash
                              "_diff.jpg".toList,
                             some (scoreOf (hamming
                               (env.phash (whitePad (max imgPrev.width imgCurr.width)
                                 (max imgPrev.height imgCurr.height) imgPrev))
                               (env.phash (whitePad (max imgPrev.width imgCurr.width)
                                 (max imgPrev.height imgCurr.height) imgCurr))))),
                           unique_filename pageId env.freshHash
                              "_diff.jpg".toList :: store)
                         : Except Unit ((Name × Option ℚ) × Store))
                     else Except.ok (([], some (scoreOf (hamming
                         (env.phash (whitePad (max imgPrev.width imgCurr.width)
                           (max imgPrev.height imgCurr.height) imgPrev))
                         (env.phash (whitePad (max imgPrev.width imgCurr.width)
                           (max imgPrev.height imgCurr.height) imgCurr))))), store))
                    = Except.ok ((dp, sc), st) := h
                split at h2
                next hpos =>
                  obtain ⟨ha, hb, hc⟩ := ok_triple_inj h2
                  exact Or.inr ⟨_, hamming_le _ _, hb, Or.inr ⟨hpos, ha, hc⟩⟩
                next hpos =>
                  obtain ⟨ha, hb, hc⟩ := ok_triple_inj h2
                  exact Or.inr ⟨_, hamming_le _ _, hb, Or.inl ⟨hpos, ha, hc⟩⟩

-- ---------------------------------------------------------------------------
-- Claim C6: derivative artifact naming
-- ---------------------------------------------------------------------------

/-- C6 (claim as stated, refuted): the diff image name is NOT derived from
the base screenshot path — `compute_diff` stores it under
`_unique_filename(page_id, "_diff.jpg")`, a freshly generated opaque name.
With base screenshot `5/aaaaaaaaaa.jpg` and previous source
`5/cccccccccc.jpg`, the produced diff lives at `5/bbbbbbbbbb_diff.jpg`, not at
the stem-derived `5/aaaaaaaaaa_diff.jpg` (nor `5/cccccccccc_diff.jpg`). -/
theorem C6_counterexample :
    let imgA : Img := { width := 1, height := 1, px := fun _ _ => (0, 0, 0) }
    let imgB : Img := { width := 1, height := 1, px := fun _ _ => (9, 9, 9) }
    let env : DiffEnv :=
      { existsPrev := ExistsOutcome.found, existsCurr := ExistsOutcome.found,
        importsOk := true, localPrev := some imgA, localCurr := some imgB,
        processingOk := true,
        phash := fun img _ => decide (img.px 0 0 = (0, 0, 0)),
        freshHash := "bbbbbbbbbb".toList }
    let curr := "5/aaaaaaaaaa.jpg".toList
    (compute_diff "5/cccccccccc.jpg".toList curr 5 env []).map (fun r => r.1.1) =
        Except.ok "5/bbbbbbbbbb_diff.jpg".toList ∧
    withName curr (pathStem curr ++ "_diff.jpg".toList) =
        "5/aaaaaaaaaa_diff.jpg".toList ∧
    ("5/bbbbbbbbbb_diff.jpg".toList : Name) ≠ "5/aaaaaaaaaa_diff.jpg".toList ∧
    ("5/bbbbbbbbbb_diff.jpg".toList : Name) ≠ "5/cccccccccc_diff.jpg".toList :=
  ⟨by with_unfolding_all rfl, by decide, by decide, by decide⟩

/-- C6 (amended): for a stored base screenshot `<dir>/<stem>.jpg`, the crop
and thumbnail names are pure functions of the base path (`<stem>_crop.jpg`,
`<stem>_thumb.jpg` next to it), while the diff image name is independently
generated: whatever diff `compute_diff` materializes is named
`<pageId>/<freshOpaqueId>_diff.jpg` from the fresh opaque id, not from either
input path. -/
theorem C6_derivative_naming (d s : Name) (hs : s ≠ []) (hsl : '/' ∉ s) :
    thumb_rel (d ++ '/' :: (s ++ ".jpg".toList)) =
      d ++ '/' :: (s ++ "_thumb.jpg".toList) ∧
    crop_rel_of (d ++ '/' :: (s ++ ".jpg".toList)) =
      d ++ '/' :: (s ++ "_crop.jpg".toList) ∧
    (∀ (prevRel currRel : Name) (pageId : Nat) (env : DiffEnv) (store : Store)
        (dp : Name) (sc : Option ℚ) (st : Store),
      compute_diff prevRel currRel pageId env store = Except.ok ((dp, sc), st) →
      dp ≠ [] → dp = unique_filename pageId env.freshHash "_diff.jpg".toList) := by
  have hjpg : (".jpg".toList : Name) = '.' :: "jpg".toList := rfl
  have hslash : '/' ∉ (s ++ '.' :: "jpg".toList) := by
    intro hm
    rcases List.mem_append.mp hm with hm | hm
    · exact hsl hm
    · exact absurd hm (by decide)
  have hname : fileName (d ++ '/' :: (s ++ '.' :: "jpg".toList)) =
      s ++ '.' :: "jpg".toList := fileName_of_append _ _ hslash
  have hstem : fileStem (s ++ '.' :: "jpg".toList) = s :=
    fileStem_append s _ hs (by decide)
  refine ⟨?_, ?_, ?_⟩
  · rw [hjpg]
    unfold thumb_rel pathStem
    rw [hname, hstem, withName_of_append _ _ _ hslash]
  · rw [hjpg]
    unfold crop_rel_of pathStem
    rw [hname, hstem, withName_of_append _ _ _ hslash]
  · intro prevRel currRel pageId env store dp sc st h hdp
    rcases compute_diff_ok_cases prevRel currRel pageId env store dp sc st h with
      ⟨h1, -, -⟩ | ⟨dnum, -, -, (⟨-, h1, -⟩ | ⟨-, h1, -⟩)⟩
    · exact absurd h1 hdp
    · exact absurd h1 hdp
    · exact h1

/-- Witness for C6 (amended): base `5/abc.jpg` gives crop `5/abc_crop.jpg`
and thumbnail `5/abc_thumb.jpg`. -/
theorem C6_derivative_naming_witness :
    thumb_rel ("5".toList ++ '/' :: ("abc".toList ++ ".jpg".toList)) =
      "5".toList ++ '/' :: ("abc".toList ++ "_thumb.jpg".toList) ∧
    crop_rel_of ("5".toList ++ '/' :: ("abc".toList ++ ".jpg".toList)) =
      "5".toList ++ '/' :: ("abc".toList ++ "_crop.jpg".toList) ∧
    (∀ (prevRel currRel : Name) (pageId : Nat) (env : DiffEnv) (store : Store)
        (dp : Name) (sc : Option ℚ) (st : Store),
      compute_diff prevRel currRel pageId env store = Except.ok ((dp, sc), st) →
      dp ≠ [] → dp = unique_filename pageId env.freshHash "_diff.jpg".toList) :=
  C6_derivative_naming "5".toList "abc".toList (by decide) (by decide)

-- ---------------------------------------------------------------------------
-- Claim C4: zero diff score means reuse of the previous artifacts
-- ---------------------------------------------------------------------------

theorem mem_of_mem_delete {x p : Name} {s : Store}
    (h : x ∈ delete_screenshot_file p s) : x ∈ s := by
  unfold delete_screenshot_file at h
  split at h
  · exact h
  · exact (List.mem_filter.mp h).1

theorem not_mem_delete_self (p : Name) (s : Store) (hp : p ≠ []) :
    p ∉ delete_screenshot_file p s := by
  unfold delete_screenshot_file
  rw [if_neg hp]
  intro hm
  have := (List.mem_filter.mp hm).2
  simp at this

/-- Case analysis of the screenshot/diff section of `_run_single_check`:
either no diff was attempted (score stays `None`, store untouched) or
`compute_diff` ran against the previous check's source and its result was
persisted — with the zero-score branch swapping in the previous paths and
deleting the fresh captures. -/
theorem run_single_check_cases (se u : Bool) (lastCheck : Option CheckRec)
    (captured : Name × Name) (pageId : Nat) (env : DiffEnv) (store : Store) :
    let r := run_single_check_artifacts se u lastCheck captured pageId env store
    (r.1.diffScore = none ∧ r.1.diffPath = [] ∧ r.2 = store) ∨
    (∃ lc dp ds store1,
      lastCheck = some lc ∧ captured.1 ≠ [] ∧ lc.screenshotPath ≠ [] ∧
      compute_diff (if lc.cropPath ≠ [] then lc.cropPath else lc.screenshotPath)
          (if captured.2 ≠ [] then captured.2 else captured.1) pageId env store =
        Except.ok ((dp, ds), store1) ∧
      ((ds = some 0 ∧
          r.1 = { screenshotPath := lc.screenshotPath, cropPath := lc.cropPath,
                  diffPath := dp, diffScore := ds } ∧
          r.2 = (if captured.2 ≠ [] then
                    delete_screenshot_file captured.2
                      (delete_screenshot_file captured.1 store1)
                  else delete_screenshot_file captured.1 store1)) ∨
        (ds ≠ some 0 ∧
          r.1 = { screenshotPath := captured.1, cropPath := captured.2,
                  diffPath := dp, diffScore := ds } ∧
          r.2 = store1))) := by
  unfold run_single_check_artifacts
  by_cases hb : (se && u) = true
  · rw [if_pos hb]
    cases lastCheck with
    | none => exact Or.inl ⟨rfl, rfl, rfl⟩
    | some lc =>
      dsimp only
      by_cases hg : captured.1 ≠ [] ∧ lc.screenshotPath ≠ []
      · rw [if_pos hg]
        cases hcd : compute_diff
            (if lc.cropPath ≠ [] then lc.cropPath else lc.screenshotPath)
            (if captured.2 ≠ [] then captured.2 else captured.1)
            pageId env store with
        | error e => exact Or.inl ⟨rfl, rfl, rfl⟩
        | ok res =>
          obtain ⟨⟨dp, ds⟩, store1⟩ := res
          dsimp only
          by_cases hz : ds = some 0
          · rw [if_pos hz]
            exact Or.inr ⟨lc, dp, ds, store1, rfl, hg.1, hg.2, hcd,
              Or.inl ⟨hz, rfl, rfl⟩⟩
          · rw [if_neg hz]
            exact Or.inr ⟨lc, dp, ds, store1, rfl, hg.1, hg.2, hcd,
              Or.inr ⟨hz, rfl, rfl⟩⟩
      · rw [if_neg hg]
        exact Or.inl ⟨rfl, rfl, rfl⟩
  · rw [if_neg hb]
    exact Or.inl ⟨rfl, rfl, rfl⟩

/-- C4: whenever the persisted check carries a diff score of exactly 0, its
diff path is empty, the executor reused the previous check's screenshot and
crop paths, and the freshly captured screenshot (and crop, when one was
produced) were deleted from the store. -/
theorem C4_zero_score_reuses_previous (se u : Bool)
    (lastCheck : Option CheckRec) (captured : Name × Name) (pageId : Nat)
    (env : DiffEnv) (store : Store)
    (hz : (run_single_check_artifacts se u lastCheck captured pageId env
        store).1.diffScore = some 0) :
    let r := run_single_check_artifacts se u lastCheck captured pageId env store
    r.1.diffPath = [] ∧
    ∃ lc, lastCheck = some lc ∧
      r.1.screenshotPath = lc.screenshotPath ∧ r.1.cropPath = lc.cropPath ∧
      captured.1 ∉ r.2 ∧ (captured.2 ≠ [] → captured.2 ∉ r.2) := by
  intro r
  rcases run_single_check_cases se u lastCheck captured pageId env store with
    ⟨h1, -, -⟩ |
    ⟨lc, dp, ds, store1, hlc, hcap, -, hcd, (⟨hds, hr1, hr2⟩ | ⟨hds, hr1, -⟩)⟩
  · rw [h1] at hz; cases hz
  · have hdp : dp = [] := by
      rcases compute_diff_ok_cases _ _ _ _ _ _ _ _ hcd with
        ⟨-, h2, -⟩ | ⟨dnum, -, h2, (⟨-, h3, -⟩ | ⟨hpos, -, -⟩)⟩
      · rw [h2] at hds; cases hds
      · exact h3
      · rw [h2] at hds
        injection hds with h4
        rw [← h4] at hpos
        simp at hpos
    constructor
    · rw [hr1, hdp]
    · refine ⟨lc, hlc, by rw [hr1], by rw [hr1], ?_, ?_⟩
      · rw [hr2]
        by_cases hc2 : captured.2 ≠ []
        · rw [if_pos hc2]
          intro hm
          exact not_mem_delete_self captured.1 store1 hcap
            (mem_of_mem_delete hm)
        · rw [if_neg hc2]
          exact not_mem_delete_self captured.1 store1 hcap
      · intro hc2
        rw [hr2, if_pos hc2]
        exact not_mem_delete_self captured.2 _ hc2
  · rw [hr1] at hz
    exact absurd hz hds

/-- Witness for C4: identical one-pixel screenshots under a constant hash give
score 0; the executor keeps the previous paths and drops the new capture. -/
theorem C4_zero_score_witness :
    let img : Img := { width := 1, height := 1, px := fun _ _ => (0, 0, 0) }
    let env : DiffEnv :=
      { existsPrev := ExistsOutcome.found, existsCurr := ExistsOutcome.found,
        importsOk := true, localPrev := some img, localCurr := some img,
        processingOk := true, phash := fun _ _ => false,
        freshHash := "ffffffffff".toList }
    let lc : CheckRec :=
      { pk := 1, checkedAt := 10, is_up := true, statusCode := some 200,
        screenshotPath := "1/a.jpg".toList, cropPath := [], diffPath := [],
        diffScore := none }
    let captured : Name × Name := ("1/b.jpg".toList, [])
    let store : Store := ["1/a.jpg".toList, "1/b.jpg".toList]
    let r := run_single_check_artifacts true true (some lc) captured 1 env store
    r.1.diffPath = [] ∧
    ∃ lc2, (some lc : Option CheckRec) = some lc2 ∧
      r.1.screenshotPath = lc2.screenshotPath ∧ r.1.cropPath = lc2.cropPath ∧
      captured.1 ∉ r.2 ∧ (captured.2 ≠ [] → captured.2 ∉ r.2) :=
  C4_zero_score_reuses_previous true true _ _ 1 _ _
    (by with_unfolding_all decide)

-- ---------------------------------------------------------------------------
-- Claim C2: retention pruning
-- ---------------------------------------------------------------------------

theorem mem_delete_iff (x p : Name) (s : Store) :
    x ∈ delete_screenshot_file p s ↔ x ∈ s ∧ ¬(p ≠ [] ∧ x = p) := by
  unfold delete_screenshot_file
  by_cases hp : p = []
  · rw [if_pos hp]
    simp [hp]
  · rw [if_neg hp]
    rw [List.mem_filter]
    simp [hp]

theorem thumb_rel_ne_nil (p : Name) : thumb_rel p ≠ [] := by
  unfold thumb_rel withName
  cases h : splitLast '/' p with
  | some dn => simp
  | none => simp

theorem mem_pruneCheckStore (x : Name) (c : CheckRec) (s : Store) :
    x ∈ pruneCheckStore c s ↔ x ∈ s ∧ ¬ deletesPath c x := by
  have hth := thumb_rel_ne_nil c.screenshotPath
  unfold pruneCheckStore deletesPath
  by_cases hss : c.screenshotPath ≠ []
  · rw [if_pos hss]
    simp only [mem_delete_iff]
    tauto
  · rw [if_neg hss]
    simp only [mem_delete_iff]
    tauto

theorem mem_foldl_prune (x : Name) :
    ∀ (l : List CheckRec) (s : Store),
      x ∈ l.foldl (fun acc c => pruneCheckStore c acc) s ↔
        x ∈ s ∧ ∀ c ∈ l, ¬ deletesPath c x
  | [], s => by simp
  | c :: l, s => by
    simp only [List.foldl_cons, mem_foldl_prune x l (pruneCheckStore c s),
      mem_pruneCheckStore, List.mem_cons]
    constructor
    · rintro ⟨⟨hs, hc⟩, hrest⟩
      refine ⟨hs, fun d hd => ?_⟩
      rcases hd with hd | hd
      · rw [hd]; exact hc
      · exact hrest d hd
    · rintro ⟨hs, hall⟩
      exact ⟨⟨hs, hall c (Or.inl rfl)⟩, fun d hd => hall d (Or.inr hd)⟩

theorem pk_injective {checks : List CheckRec}
    (hnd : (checks.map (fun c => c.pk)).Nodup) :
    ∀ {a b : CheckRec}, a ∈ checks → b ∈ checks → a.pk = b.pk → a = b := by
  intro a b ha hb hpk
  by_contra hne
  have hp : checks.Pairwise (fun x y => x.pk ≠ y.pk) := List.pairwise_map.mp hnd
  have hsym : Symmetric (fun x y : CheckRec => x.pk ≠ y.pk) := by
    intro x y h he
    exact h he.symm
  exact (hp.forall hsym ha hb hne) hpk

theorem any_pk_iff_mem {checks toPrune : List CheckRec}
    (hnd : (checks.map (fun c => c.pk)).Nodup)
    (hsub : ∀ d ∈ toPrune, d ∈ checks) {c : CheckRec} (hc : c ∈ checks) :
    (toPrune.any (fun d => d.pk = c.pk) = true) ↔ c ∈ toPrune := by
  rw [List.any_eq_true]
  constructor
  · rintro ⟨d, hd, hdc⟩
    have hdc2 : d.pk = c.pk := by simpa using hdc
    have : d = c := pk_injective hnd (hsub d hd) hc hdc2
    rw [this] at hd
    exact hd
  · intro hc2
    exact ⟨c, hc2, by simp⟩

/-- C2 (claim as stated, refuted): artifact paths can be shared between
checks (the executor's zero-score branch reuses the previous check's paths);
prune then deletes a file still referenced by a retained check.  With limit 1
and two checks sharing `1/a.jpg`, the newest check keeps its non-empty path
but its stored file is gone after the prune. -/
theorem C2_counterexample :
    let c2 : CheckRec :=
      { pk := 2, checkedAt := 2, is_up := true, statusCode := some 200,
        screenshotPath := "1/a.jpg".toList, cropPath := [], diffPath := [],
        diffScore := some 0 }
    let c1 : CheckRec :=
      { pk := 1, checkedAt := 1, is_up := true, statusCode := some 200,
        screenshotPath := "1/a.jpg".toList, cropPath := [], diffPath := [],
        diffScore := none }
    let r := cleanup_old_screenshots 1 [c2, c1] ["1/a.jpg".toList]
    r.1.head? = some c2 ∧ c2.screenshotPath ≠ [] ∧
      c2.screenshotPath ∈ (["1/a.jpg".toList] : Store) ∧
      c2.screenshotPath ∉ r.2 := by decide

/-- C2 (amended): with `checks` the page's rows newest-first (the query
ordering), primary keys distinct (a database invariant), and — the proviso the
counterexample forces — no retained check's screenshot path among the paths
deleted on behalf of a pruned check, `cleanup_old_screenshots` behaves exactly
as claimed: a no-op when at most `limit` artifact-bearing rows exist;
otherwise exactly the `count − limit` oldest artifact-bearing rows get their
three path fields cleared (rows and diff scores intact, no row deleted), their
files including the derived thumbnail leave the store, the `limit` newest keep
their rows untouched and their stored files present, and the store only ever
shrinks. -/
theorem C2_prune_retention (limit : Nat) (checks : List CheckRec) (store : Store)
    (withSS toPrune : List CheckRec) (result : List CheckRec × Store)
    (hw : withSS = checks.filter (fun c => c.screenshotPath ≠ []))
    (ht : toPrune = withSS.drop limit)
    (hr : result = cleanup_old_screenshots limit checks store)
    (hsorted : checks.Pairwise (fun a b => b.checkedAt < a.checkedAt))
    (hnd : (checks.map (fun c => c.pk)).Nodup)
    (hdistinct : ∀ k ∈ withSS.take limit, ∀ p ∈ toPrune,
        ¬ deletesPath p k.screenshotPath) :
    (withSS.length ≤ limit → result = (checks, store)) ∧
    toPrune.length = withSS.length - limit ∧
    (∀ k ∈ withSS.take limit, ∀ p ∈ toPrune, p.checkedAt < k.checkedAt) ∧
    result.1 = checks.map (fun c => if c ∈ toPrune then clearPaths c else c) ∧
    (∀ p ∈ toPrune,
       p.screenshotPath ∉ result.2 ∧
       thumb_rel p.screenshotPath ∉ result.2 ∧
       (p.cropPath ≠ [] → p.cropPath ∉ result.2) ∧
       (p.diffPath ≠ [] → p.diffPath ∉ result.2)) ∧
    (∀ k ∈ withSS.take limit, k.screenshotPath ∈ store →
       k.screenshotPath ∈ result.2) ∧
    (∀ x, x ∈ result.2 → x ∈ store) := by
  subst hw
  subst ht
  subst hr
  have hsublist :
      ((checks.filter fun c => c.screenshotPath ≠ []).drop limit).Sublist checks :=
    (List.drop_sublist _ _).trans (List.filter_sublist _)
  have hsubset : ∀ d ∈ (checks.filter fun c => c.screenshotPath ≠ []).drop limit,
      d ∈ checks := fun d hd => hsublist.subset hd
  have hlen : ((checks.filter fun c => c.screenshotPath ≠ []).drop limit).length =
      (checks.filter fun c => c.screenshotPath ≠ []).length - limit :=
    List.length_drop _ _
  have hsplit : ∀ k ∈ (checks.filter fun c => c.screenshotPath ≠ []).take limit,
      ∀ p ∈ (checks.filter fun c => c.screenshotPath ≠ []).drop limit,
      p.checkedAt < k.checkedAt := by
    have hws : (checks.filter fun c => c.screenshotPath ≠ []).Pairwise
        (fun a b => b.checkedAt < a.checkedAt) :=
      hsorted.sublist (List.filter_sublist _)
    rw [← List.take_append_drop limit
      (checks.filter fun c => c.screenshotPath ≠ [])] at hws
    exact (List.pairwise_append.mp hws).2.2
  have hpmem : ∀ p ∈ (checks.filter fun c => c.screenshotPath ≠ []).drop limit,
      p.screenshotPath ≠ [] := by
    intro p hp
    have hpf : p ∈ checks.filter (fun c => c.screenshotPath ≠ []) :=
      (List.drop_subset _ _) hp
    simpa using List.of_mem_filter hpf
  by_cases hempty : (checks.filter fun c => c.screenshotPath ≠ []).drop limit = []
  · have hres : cleanup_old_screenshots limit checks store = (checks, store) := by
      unfold cleanup_old_screenshots
      dsimp only
      rw [if_pos hempty]
    refine ⟨fun _ => hres, hlen, hsplit, ?_, ?_, ?_, ?_⟩
    · rw [hres, hempty]
      simp
    · intro p hp
      rw [hempty] at hp
      cases hp
    · intro k hk hks
      rw [hres]
      exact hks
    · intro x hx
      rw [hres] at hx
      exact hx
  · have hres : cleanup_old_screenshots limit checks store =
        (checks.map (fun c =>
            if ((checks.filter fun c => c.screenshotPath ≠ []).drop limit).any
                (fun d => d.pk = c.pk) then clearPaths c else c),
          ((checks.filter fun c => c.screenshotPath ≠ []).drop limit).foldl
            (fun s c => pruneCheckStore c s) store) := by
      unfold cleanup_old_screenshots
      dsimp only
      rw [if_neg hempty]
    refine ⟨?_, hlen, hsplit, ?_, ?_, ?_, ?_⟩
    · intro hle
      exact absurd (List.drop_eq_nil_of_le hle) hempty
    · rw [hres]
      dsimp only
      apply List.map_congr_left
      intro c hc
      by_cases hcm : c ∈ (checks.filter fun c => c.screenshotPath ≠ []).drop limit
      · rw [if_pos ((any_pk_iff_mem hnd hsubset hc).mpr hcm), if_pos hcm]
      · rw [if_neg (fun h => hcm ((any_pk_iff_mem hnd hsubset hc).mp h)),
          if_neg hcm]
    · intro p hp
      have hps := hpmem p hp
      rw [hres]
      dsimp only
      refine ⟨?_, ?_, ?_, ?_⟩
      · intro hmem
        have h2 := ((mem_foldl_prune _ _ _).mp hmem).2 p hp
        exact h2 (Or.inl ⟨hps, rfl⟩)
      · intro hmem
        have h2 := ((mem_foldl_prune _ _ _).mp hmem).2 p hp
        exact h2 (Or.inr (Or.inr (Or.inr ⟨hps, rfl⟩)))
      · intro hcp hmem
        have h2 := ((mem_foldl_prune _ _ _).mp hmem).2 p hp
        exact h2 (Or.inr (Or.inl ⟨hcp, rfl⟩))
      · intro hdp hmem
        have h2 := ((mem_foldl_prune _ _ _).mp hmem).2 p hp
        exact h2 (Or.inr (Or.inr (Or.inl ⟨hdp, rfl⟩)))
    · intro k hk hks
      rw [hres]
      dsimp only
      exact (mem_foldl_prune _ _ _).mpr ⟨hks, fun c hc => hdistinct k hk c hc⟩
    · intro x hx
      rw [hres] at hx
      dsimp only at hx
      exact ((mem_foldl_prune _ _ _).mp hx).1

/-- Witness for C2: limit 1, two artifact-bearing checks with disjoint paths;
the older one is pruned (fields cleared, files including its thumbnail gone),
the newer keeps its row and its stored file. -/
theorem C2_prune_retention_witness :
    let c2 : CheckRec :=
      { pk := 2, checkedAt := 2, is_up := true, statusCode := some 200,
        screenshotPath := "1/b.jpg".toList, cropPath := [], diffPath := [],
        diffScore := some 1 }
    let c1 : CheckRec :=
      { pk := 1, checkedAt := 1, is_up := true, statusCode := some 200,
        screenshotPath := "1/a.jpg".toList, cropPath := "1/a_crop.jpg".toList,
        diffPath := "1/x_diff.jpg".toList, diffScore := some 5 }
    let checks : List CheckRec := [c2, c1]
    let store : Store :=
      ["1/b.jpg".toList, "1/a.jpg".toList, "1/a_crop.jpg".toList,
       "1/x_diff.jpg".toList, "1/a_thumb.jpg".toList, "1/b_thumb.jpg".toList]
    let withSS := checks.filter (fun c => c.screenshotPath ≠ [])
    let toPrune := withSS.drop 1
    let result := cleanup_old_screenshots 1 checks store
    (withSS.length ≤ 1 → result = (checks, store)) ∧
    toPrune.length = withSS.length - 1 ∧
    (∀ k ∈ withSS.take 1, ∀ p ∈ toPrune, p.checkedAt < k.checkedAt) ∧
    result.1 = checks.map (fun c => if c ∈ toPrune then clearPaths c else c) ∧
    (∀ p ∈ toPrune,
       p.screenshotPath ∉ result.2 ∧
       thumb_rel p.screenshotPath ∉ result.2 ∧
       (p.cropPath ≠ [] → p.cropPath ∉ result.2) ∧
       (p.diffPath ≠ [] → p.diffPath ∉ result.2)) ∧
    (∀ k ∈ withSS.take 1, k.screenshotPath ∈ store →
       k.screenshotPath ∈ result.2) ∧
    (∀ x, x ∈ result.2 → x ∈ store) :=
  C2_prune_retention 1 _ _ _ _ _ rfl rfl rfl (by decide) (by decide) (by decide)

/-- Witness for C9: an authenticated owner requesting an existing artifact on
the local backend receives the file, and all guards indeed hold. -/
theorem C9_serving_witness :
    let env : ServeEnv :=
      { backend := StorageBackend.localDisk,
        owns := fun pid uid => pid = 3 && uid = 7,
        existsRel := true, presignOk := false, openOk := false,
        localIsFile := true }
    let parts : List Name := ["3".toList, "a.jpg".toList]
    ∃ uid first pid, (some 7 : Option Nat) = some uid ∧ dotdot ∉ parts ∧
      parts.head? = some first ∧ py_int first = some pid ∧
      env.owns pid uid = true :=
  C9_serving_requires_ownership (some 7) _ _ (joinParts ["3".toList, "a.jpg".toList])
    (Or.inl rfl)

end WebMon
